import Mathlib

/-!
Verification of the geospatial raster indexing and sampling core of the
repository (HRRR product / inventory / coordinate utilities), as a shallow
embedding in Lean 4.  Numeric code that Python runs over IEEE doubles is
modelled over `ℚ` (exact arithmetic); the places where IEEE special values
(inf / nan from division by zero) are semantically relevant are modelled
explicitly by the small type `NpVal` below.
-/

namespace Meteocre

/-! ## Coordinate transform utilities (`fetchhrrr/utils.py`) -/

/-- Shallow embedding of `map_to_pix` (utils.py lines 106-137), the non-rounded
core for one point.  `xform` is the 6-parameter GDAL affine transform; the code
computes `det = 1 / (xform[1]*xform[5] - xform[2]*xform[4])`,
`x_p = det * (xform[5]*(x_m - xform[0]) - xform[2]*(y_m - xform[3]))` and
`y_p = det * (xform[1]*(y_m - xform[3]) - xform[4]*(x_m - xform[0]))`.
The numpy array path applies exactly this formula elementwise. -/
def map_to_pix_f (xform : Fin 6 → ℚ) (x_m y_m : ℚ) : ℚ × ℚ :=
  let det := (xform 1 * xform 5 - xform 2 * xform 4)⁻¹
  (det * (xform 5 * (x_m - xform 0) - xform 2 * (y_m - xform 3)),
   det * (xform 1 * (y_m - xform 3) - xform 4 * (x_m - xform 0)))

/-- Shallow embedding of `pix_to_map` (utils.py lines 140-162) for one point:
`x_m = xform[0] + xform[1]*x_p + xform[2]*y_p`,
`y_m = xform[3] + xform[4]*x_p + xform[5]*y_p`. -/
def pix_to_map (xform : Fin 6 → ℚ) (x_p y_p : ℚ) : ℚ × ℚ :=
  (xform 0 + xform 1 * x_p + xform 2 * y_p,
   xform 3 + xform 4 * x_p + xform 5 * y_p)

/-- The vector path of `map_to_pix` (`round=False`): the formula is applied
elementwise to equal-length coordinate arrays and the output arrays have the
same length as the inputs. -/
def map_to_pix_list (xform : Fin 6 → ℚ) (xs ys : List ℚ) : List ℚ × List ℚ :=
  ((xs.zip ys).map (fun p => (map_to_pix_f xform p.1 p.2).1),
   (xs.zip ys).map (fun p => (map_to_pix_f xform p.1 p.2).2))

/-- The vector path of `pix_to_map`, elementwise like the numpy code. -/
def pix_to_map_list (xform : Fin 6 → ℚ) (xs ys : List ℚ) : List ℚ × List ℚ :=
  ((xs.zip ys).map (fun p => (pix_to_map xform p.1 p.2).1),
   (xs.zip ys).map (fun p => (pix_to_map xform p.1 p.2).2))

/-- Embedding of `np.round` applied by `map_to_pix` when `round=True`:
round to the nearest integer, ties to the even integer (numpy's rounding
rule). -/
def npRound (q : ℚ) : ℤ :=
  let f := ⌊q⌋
  let r := q - (f : ℚ)
  if r < 1 / 2 then f
  else if 1 / 2 < r then f + 1
  else if f % 2 = 0 then f else f + 1

/-- `map_to_pix` with the default `round=True`: the fractional pixel
coordinates are rounded with `np.round` and cast to integers. -/
def map_to_pix_round (xform : Fin 6 → ℚ) (x_m y_m : ℚ) : ℤ × ℤ :=
  let p := map_to_pix_f xform x_m y_m
  (npRound p.1, npRound p.2)

/-! ## Ellipse pixel enumeration (`get_px_in_ellipse`, utils.py lines 176-192)

The code builds `grid = np.mgrid[-m:(m+1), -m:(m+1)]` with `m = max(a, b)`,
tests `(grid_sq[0]/a**2 + grid_sq[1]/b**2) <= 1` (numpy true division of
integer arrays, i.e. IEEE double division: `x/0` is `inf` for `x > 0` and
`nan` for `x = 0`, and neither compares `<= 1`), and then assembles
`pts = grid[:, y, x].T` from `x, y = np.where(v)` — note that `grid[:, y, x]`
swaps the two index arrays, so each returned pair is `(axis-1 offset,
axis-0 offset)` while axis 0 was normalized by `a` and axis 1 by `b`.
Finally `center` is added componentwise. -/

/-- Value of one numpy true-division in the ellipse membership test: a finite
double (modelled as a rational), `inf`, or `nan`. -/
inductive NpVal where
  | fin (q : ℚ)
  | inf
  | nan
deriving DecidableEq

/-- Numpy true division `n / d` for the ellipse test.  The numerators are
squares, so division by zero yields `nan` for `0/0` and (positive) `inf`
otherwise. -/
def npDiv (n d : ℚ) : NpVal :=
  if d = 0 then (if n = 0 then NpVal.nan else NpVal.inf) else NpVal.fin (n / d)

/-- IEEE addition restricted to the values the ellipse test produces:
`nan` absorbs, then `inf` absorbs, finite values add. -/
def npAdd : NpVal → NpVal → NpVal
  | NpVal.nan, _ => NpVal.nan
  | _, NpVal.nan => NpVal.nan
  | NpVal.inf, _ => NpVal.inf
  | _, NpVal.inf => NpVal.inf
  | NpVal.fin a, NpVal.fin b => NpVal.fin (a + b)

/-- IEEE comparison `v <= 1`: false for `inf` and for `nan`. -/
def npLeOne : NpVal → Bool
  | NpVal.fin q => decide (q ≤ 1)
  | NpVal.inf => false
  | NpVal.nan => false

/-- The membership test `(grid_sq[0]/a**2 + grid_sq[1]/b**2) <= 1` evaluated at
axis-0 offset `i` and axis-1 offset `j`. -/
def inEllipseTest (a b i j : ℤ) : Bool :=
  npLeOne (npAdd (npDiv ((i : ℚ) ^ 2) ((a : ℚ) ^ 2)) (npDiv ((j : ℚ) ^ 2) ((b : ℚ) ^ 2)))

/-- Integer-only computational form of `inEllipseTest` (proved equal to it in
`inEllipseTest_eq_int` below): for nonzero semi-axes the rational inequality
is cleared of denominators, and a zero semi-axis makes the test false because
the IEEE division yields `inf` or `nan`. -/
def intEllipseTest (a b i j : ℤ) : Bool :=
  if a = 0 ∨ b = 0 then false
  else decide (i ^ 2 * b ^ 2 + a ^ 2 * j ^ 2 ≤ a ^ 2 * b ^ 2)

/-- The offsets enumerated along each axis of `np.mgrid[-m:(m+1), -m:(m+1)]`:
the integers `-m, ..., m` (for `m ≥ 0`). -/
def gridOffsets (m : ℤ) : List ℤ :=
  (List.range (2 * m.toNat + 1)).map (fun k : ℕ => -m + (k : ℤ))

/-- Shallow embedding of `get_px_in_ellipse` (utils.py lines 176-192).
`np.where` enumerates the true entries of `v` in row-major order (axis-0 index
`i` outer, axis-1 index `j` inner); `pts = grid[:, y, x].T` makes the returned
pair `(j, i)` (the index arrays are swapped in the `grid` lookup), and the
center is then added componentwise. -/
def get_px_in_ellipse (center : ℤ × ℤ) (a b : ℤ) : List (ℤ × ℤ) :=
  (gridOffsets (max a b)).flatMap (fun i =>
    (gridOffsets (max a b)).filterMap (fun j =>
      if inEllipseTest a b i j then some (center.1 + j, center.2 + i) else none))

/-- The membership predicate exactly as the claim states it: the offset of a
returned pixel from the center, with the first coordinate normalized by `a`
and the second by `b`, has normalized ellipse distance at most 1. -/
def claimedEllipseMem (center : ℤ × ℤ) (a b : ℤ) (p : ℤ × ℤ) : Prop :=
  ((p.1 - center.1 : ℚ) / (a : ℚ)) ^ 2 + ((p.2 - center.2 : ℚ) / (b : ℚ)) ^ 2 ≤ 1

instance (center : ℤ × ℤ) (a b : ℤ) (p : ℤ × ℤ) :
    Decidable (claimedEllipseMem center a b p) := by
  unfold claimedEllipseMem; infer_instance

/-- Modelled from the spec words for the `a == 0` edge case: the degenerate
single-column pixel set, i.e. exactly the integer points on the remaining
axis whose normalized distance is at most 1 (offsets `-b, ..., b`). -/
def claimed_degenerate_px (center : ℤ × ℤ) (b : ℤ) : List (ℤ × ℤ) :=
  (gridOffsets b).map (fun j => (center.1, center.2 + j))

/-! ## Parameter inventory (`nwstools/fetchhrrr/hrrr_inventory.py`) -/

/-- Per-band GDAL metadata used by `HRRRInventory.__init__`: the
`GRIB_SHORT_NAME` and `GRIB_ELEMENT` / `GRIB_COMMENT` metadata keys and the
band description string. -/
structure BandMeta where
  grib_short_name : String
  band_desc : String
  grib_element : String
  grib_comment : String
deriving DecidableEq

/-- The raster interface the inventory introspects: `RasterCount` and
`GetRasterBand(i)` for 1-based `i`. -/
structure GdalDataset where
  rasterCount : ℕ
  band : ℕ → BandMeta

/-- One inventory record (`param_dict` in the source). -/
structure ParamDict where
  idx : ℕ
  level : String
  level_tech_desc : String
  level_desc : String
  param : String
  desc : String
deriving DecidableEq

/-- The `level_nice_desc` mapping of level strings to layman descriptions
(hrrr_inventory.py lines 16-30). -/
def level_nice_desc : List (String × String) :=
  [("0-SFC", "surface"),
   ("50000-ISBL", "500 mb"),
   ("70000-ISBL", "700 mb"),
   ("85000-ISBL", "850 mb"),
   ("92500-ISBL", "925 mb"),
   ("2-HTGL", "2 m above ground"),
   ("10-HTGL", "10 m above ground"),
   ("50000-100000-ISBL", "500-1000 mb"),
   ("0-EATM", "entire atmosphere (considered as a single layer)"),
   ("0-LCY", "low cloud layer"),
   ("0-1000-HTGL", "0-1000 m above ground"),
   ("0-6000-HTGL", "0-6000 m above ground"),
   ("9000-0-SPDL", "90-0 mb above ground")]

/-- `level_nice_desc.get(level, '')`: unknown level codes map to the empty
description. -/
def level_nice_desc_get (lvl : String) : String :=
  ((level_nice_desc.find? (fun e => e.1 == lvl)).map (fun e => e.2)).getD ""

/-- Shallow embedding of `HRRRInventory.__init__` (hrrr_inventory.py lines
38-51): the source iterates `for i in range(1, hrrr_product.gdal_ds.RasterCount)`
— the indices `1, ..., RasterCount - 1` — and stores, per index, the record
built from that band's metadata.  The Python dict keyed by `i` with insertion
order `1, 2, ...` is modelled as the list of records in that order. -/
def hrrr_inventory_init (ds : GdalDataset) : List ParamDict :=
  (List.range' 1 (ds.rasterCount - 1)).map (fun i =>
    { idx := i
      level := (ds.band i).grib_short_name
      level_tech_desc := (ds.band i).band_desc
      level_desc := level_nice_desc_get (ds.band i).grib_short_name
      param := (ds.band i).grib_element
      desc := (ds.band i).grib_comment })

/-- Shallow embedding of `HRRRInventory.get_product_by_index` (lines 53-85) for
a single index: `self._inventory[idx]`, with `KeyError` re-raised as
`ValueError('No product exists for index ...')`.  (The list path of the source
wraps this elementwise.) -/
def get_product_by_index (inv : List ParamDict) (idx : ℕ) : Except String ParamDict :=
  match inv.find? (fun d => d.idx == idx) with
  | some d => Except.ok d
  | none => Except.error "No product exists for index"

/-- Shallow embedding of `HRRRInventory.get_product_by_param` (lines 87-115):
iterate the inventory values in insertion order and keep every record whose
`param` is in the requested codes and (when `levels` is non-empty) whose
`level` is in `levels`.  `params_search` is copied but never mutated in the
source, so the filter is against the full requested list throughout. -/
def get_product_by_param (inv : List ParamDict) (params : List String)
    (levels : List String) : List ParamDict :=
  inv.filter (fun d => params.contains d.param && (levels.isEmpty || levels.contains d.level))

/-! ## Point sampling (`HRRRProduct.query_for_pts`)

Identical in `meteocre/fetchhrrr/hrrr_product.py` lines 577-627 and
`nwstools/fetchhrrr/hrrr_product.py` lines 437-474.  The GDAL subset raster
returned by `get_ds_for_product_idx` is modelled as its width `W`, height `H`,
geotransform `gt` and per-band pixel functions (`ReadAsArray()[y, x]`); the
bounding-box computation and warp that produce it are external GDAL work. -/

/-- Shallow embedding of the sampling stage of `query_for_pts`.  `pts` holds
`(lat, lon)` rows; the source calls `map_to_pix(gt, pt_ar[:, 1], pt_ar[:, 0])`
(default `round=True`), forms the in-bounds mask
`v = (x >= 0) & (y >= 0) & (x < W) & (y < H)`, warns only when
`len(v) < pt_ar.shape[0]`, allocates the output with `np.zeros`, and scatters
band reads `ReadAsArray()[valid_y, valid_x]` into the rows where `v` holds.
The result is `(warning emitted?, output rows)`. -/
def query_for_pts (W H : ℤ) (gt : Fin 6 → ℚ) (bands : List (ℤ → ℤ → ℚ))
    (pts : List (ℚ × ℚ)) : Bool × List (List ℚ) :=
  let xy := pts.map (fun pt => map_to_pix_round gt pt.2 pt.1)
  let v := xy.map (fun q => decide (0 ≤ q.1) && decide (0 ≤ q.2) &&
    decide (q.1 < W) && decide (q.2 < H))
  let warn := decide (v.length < pts.length)
  let output := (xy.zip v).map (fun e =>
    if e.2 then bands.map (fun f => f e.1.2 e.1.1) else bands.map (fun _ => (0 : ℚ)))
  (warn, output)

/-! ## Mesoanalysis derived fields (`nwstools/fetchhrrr/mesoanalysis.py`)

All numpy operations in the two functions are elementwise, so they are
modelled per pixel.  `np.linalg.norm((u, v), axis=0)` is the only non-rational
step; the per-pixel bulk-wind-difference value `bwd` is therefore taken as an
input constrained by its defining property `0 ≤ bwd ∧ bwd ^ 2 = u ^ 2 + v ^ 2`
in the theorems. -/

/-- Per-pixel embedding of `hrrr_get_supercell_composite_parameter` (lines
44-51): `scp = (mucape/1000) * (bwd/40) * (srh_3km/100)`, then
`scp_ar[scp_ar < 0] = 0`. -/
def scpPixel (mucape bwd srh3 : ℚ) : ℚ :=
  let scp := (mucape / 1000) * (bwd / 40) * (srh3 / 100)
  if scp < 0 then 0 else scp

/-- Per-pixel embedding of `hrrr_get_significant_tornado_parameter` (lines
96-109): `lcl_term = (2000 - lcl)/1000` overwritten to `1.0` where
`lcl < 1000`; `bwd_term = bwd/20` overwritten to `1.5` where `bwd > 30` and
then to `0.0` where `bwd < 12.5`; `stp = (sbcape/1500) * lcl_term *
(srh_1km/150) * bwd_term`, then `stp_ar[stp_ar < 0.0] = 0.0`. -/
def stpPixel (sbcape bwd lcl srh1 : ℚ) : ℚ :=
  let lclTerm := if lcl < 1000 then 1 else (2000 - lcl) / 1000
  let bwdTerm := if bwd < 12.5 then 0 else if bwd > 30 then 1.5 else bwd / 20
  let stp := (sbcape / 1500) * lclTerm * (srh1 / 150) * bwdTerm
  if stp < 0 then 0 else stp

/-! ## Projection selection and bounds handling (`get_ds_for_product_idx`) -/

/-- The raster operations `get_ds_for_product_idx` can perform, in order of
appearance in the source: the lazy `fetch` triggered by the `gdal_ds`
property, the `/vsimem/` in-memory allocations, `gdal.Translate`, `gdal.Warp`
and the explicit `gdal_close_dataset` release. -/
inductive RasterOp where
  | fetch
  | allocMem
  | translate
  | warp
  | closeDs
deriving DecidableEq

/-- Shallow embedding of the control flow of `get_ds_for_product_idx`
(meteocre lines 428-488, nwstools lines 298-365): the destination projection
must be the literal string `world` or `map`; any other value raises
`ValueError` before `gdal.Translate`, `gdal.Warp` or any `/vsimem/`
allocation, and before `self.gdal_ds` (which would trigger the lazy fetch) is
touched.  The model carries the lazily-fetched flag `fetched` as the product
state and returns the ordered raster-operation trace alongside the
success/error result. -/
def get_ds_for_product_idx (fetched : Bool) (proj : String)
    (bounds : Option (ℚ × ℚ × ℚ × ℚ)) : List RasterOp × Bool × Except String Unit :=
  if proj = "world" ∨ proj = "map" then
    ((if fetched then [] else [RasterOp.fetch]) ++
      [RasterOp.allocMem, RasterOp.translate, RasterOp.allocMem, RasterOp.warp,
       RasterOp.closeDs], true, Except.ok ())
  else ([], fetched, Except.error "Projection must be world or map")

/-- Shallow embedding of the `proj == 'map'` bounds transformation of the
meteocre `get_ds_for_product_idx` (meteocre hrrr_product.py lines 450-459):
`(lon_min, lat_min, _), (lon_max, lat_max, _) = [transform.TransformPoint(*e)
for e in ((lat_min, lon_min), (lat_max, lon_max))]`.  `T` models the
coordinate-transformation routine applied to the argument pair as supplied;
the result is the list of argument pairs passed to it, in call order,
together with the replaced bounds `(lon_min, lat_min, lon_max, lat_max)`
later used as the warp output bounds. -/
def meteocre_map_bounds_xform (T : ℚ × ℚ → ℚ × ℚ) (bounds : ℚ × ℚ × ℚ × ℚ) :
    List (ℚ × ℚ) × (ℚ × ℚ × ℚ × ℚ) :=
  let lon_min := bounds.1
  let lat_min := bounds.2.1
  let lon_max := bounds.2.2.1
  let lat_max := bounds.2.2.2
  let c1 := (lat_min, lon_min)
  let c2 := (lat_max, lon_max)
  let r1 := T c1
  let r2 := T c2
  ([c1, c2], (r1.1, r1.2, r2.1, r2.2))

/-- Shallow embedding of the same stage of the nwstools
`get_ds_for_product_idx` (nwstools hrrr_product.py lines 320-327):
`transform.TransformPoints([(lon_min, lat_min), (lon_max, lat_max)])` — the
corner tuples are built `(longitude, latitude)`. -/
def nwstools_map_bounds_xform (T : ℚ × ℚ → ℚ × ℚ) (bounds : ℚ × ℚ × ℚ × ℚ) :
    List (ℚ × ℚ) × (ℚ × ℚ × ℚ × ℚ) :=
  let lon_min := bounds.1
  let lat_min := bounds.2.1
  let lon_max := bounds.2.2.1
  let lat_max := bounds.2.2.2
  let c1 := (lon_min, lat_min)
  let c2 := (lon_max, lat_max)
  let r1 := T c1
  let r2 := T c2
  ([c1, c2], (r1.1, r1.2, r2.1, r2.2))

/-! ## Product id validation (`nwstools/fetchhrrr/utils.py` lines 39-44) -/

/-- Truth of `re.match("/(prs)|(nat)|(sfc)|(subh)$", s)`: the pattern is an
alternation of four branches anchored at the start of the string, so it
matches iff `s` starts with `/prs`, starts with `nat`, starts with `sfc`, or
is exactly `subh` (the `$` of the last branch also matches just before one
trailing newline). -/
def matches_product_re (s : List Char) : Bool :=
  "/prs".toList.isPrefixOf s || "nat".toList.isPrefixOf s ||
  "sfc".toList.isPrefixOf s || s == "subh".toList ||
  s == "subh".toList ++ [Char.ofNat 10]

/-- Shallow embedding of `validate_product_id`: raise `ValueError` unless the
regex matches. -/
def validate_product_id (s : List Char) : Except String Unit :=
  if matches_product_re s then Except.ok () else Except.error "Invalid product ID"

/-- The validation step of `HRRRProduct.__init__` (meteocre and nwstools
hrrr_product.py, `validate_product_id(product_id)` before the product id is
stored): when it raises, the constructor aborts and no product object is
created. -/
def hrrr_product_init_validation (productId : List Char) : Except String Unit :=
  validate_product_id productId

/-! ## Concrete instances used by the per-claim evaluations -/

/-- Identity-like geotransform `(0, 1, 0, 0, 0, 1)`: pixel x equals map x and
pixel y equals map y. -/
def idGT : Fin 6 → ℚ :=
  fun i => if i.val = 1 then 1 else if i.val = 5 then 1 else 0

/-- A distinguishable demo band: value `x + 10*y + 7` at column `x`, row `y`. -/
def c1_band : ℤ → ℤ → ℚ := fun y x => (x : ℚ) + 10 * (y : ℚ) + 7

/-- A single-band raster (`RasterCount = 1`). -/
def c2_ds1 : GdalDataset :=
  { rasterCount := 1, band := fun _ => ⟨"0-SFC", "dsc", "TMP", "cmt"⟩ }

/-- A three-band raster with pairwise distinct parameter codes. -/
def c2_ds3 : GdalDataset :=
  { rasterCount := 3,
    band := fun i => ⟨"0-SFC", "dsc", if i = 1 then "TMP" else if i = 2 then "DPT" else "UGRD", "cmt"⟩ }

/-- A raster whose live-introspected inventory holds exactly one band with
parameter code `A` and one with parameter code `B` (the third band is beyond
the range the introspection loop enumerates). -/
def c6_ds : GdalDataset :=
  { rasterCount := 3,
    band := fun i => if i = 1 then ⟨"0-SFC", "dA", "A", "cA"⟩ else ⟨"2-HTGL", "dB", "B", "cB"⟩ }

/-- The inventory record of the `A` band of `c6_ds`. -/
def c6_recA : ParamDict :=
  { idx := 1, level := "0-SFC", level_tech_desc := "dA", level_desc := "surface",
    param := "A", desc := "cA" }

/-- The inventory record of the `B` band of `c6_ds`. -/
def c6_recB : ParamDict :=
  { idx := 2, level := "2-HTGL", level_tech_desc := "dB",
    level_desc := "2 m above ground", param := "B", desc := "cB" }

/-! ## Theorems -/

/-- C3: for every 6-parameter affine transform whose 2x2 linear part is
non-degenerate (`xform[1]*xform[5] - xform[2]*xform[4] ≠ 0`) and every
`(lon, lat)`, applying `pix_to_map` to the result of `map_to_pix` with
`round=False` recovers the original `(lon, lat)` exactly in the rational
model (hence within any floating-point tolerance), and the vector paths of
both functions are elementwise and return arrays of the input length. -/
theorem C3_affine_round_trip (xform : Fin 6 → ℚ) (lon lat : ℚ)
    (h : xform 1 * xform 5 - xform 2 * xform 4 ≠ 0) :
    pix_to_map xform (map_to_pix_f xform lon lat).1 (map_to_pix_f xform lon lat).2 = (lon, lat)
    ∧ (∀ xs ys : List ℚ, xs.length = ys.length →
        (map_to_pix_list xform xs ys).1.length = xs.length ∧
        (map_to_pix_list xform xs ys).2.length = xs.length ∧
        (pix_to_map_list xform xs ys).1.length = xs.length ∧
        (pix_to_map_list xform xs ys).2.length = xs.length) := by
  constructor
  · simp only [map_to_pix_f, pix_to_map, Prod.mk.injEq]
    constructor
    · field_simp
      ring
    · field_simp
      ring
  · intro xs ys hlen
    simp [map_to_pix_list, pix_to_map_list, List.length_zip, hlen]

/-- Witness for C3 at the identity-like transform and the point (2, 3). -/
theorem C3_affine_round_trip_witness :
    (idGT 1 * idGT 5 - idGT 2 * idGT 4 ≠ 0)
    ∧ pix_to_map idGT (map_to_pix_f idGT 2 3).1 (map_to_pix_f idGT 2 3).2 = (2, 3) :=
  ⟨by norm_num [show idGT 1 = 1 from rfl, show idGT 5 = 1 from rfl,
        show idGT 2 = 0 from rfl, show idGT 4 = 0 from rfl],
   (C3_affine_round_trip idGT 2 3
      (by norm_num [show idGT 1 = 1 from rfl, show idGT 5 = 1 from rfl,
            show idGT 2 = 0 from rfl, show idGT 4 = 0 from rfl])).1⟩

theorem npLeOne_npAdd_left_nan (x : NpVal) : npLeOne (npAdd NpVal.nan x) = false := by
  cases x <;> rfl

theorem npLeOne_npAdd_left_inf (x : NpVal) : npLeOne (npAdd NpVal.inf x) = false := by
  cases x <;> rfl

theorem npLeOne_npAdd_right_nan (x : NpVal) : npLeOne (npAdd x NpVal.nan) = false := by
  cases x <;> rfl

theorem npLeOne_npAdd_right_inf (x : NpVal) : npLeOne (npAdd x NpVal.inf) = false := by
  cases x <;> rfl

theorem inEllipseTest_degenerate (a b i j : ℤ) (h : a = 0 ∨ b = 0) :
    inEllipseTest a b i j = false := by
  rcases h with h | h
  · subst h
    by_cases hi : ((i : ℚ) ^ 2) = 0
    · simp only [inEllipseTest, npDiv, Int.cast_zero, ne_eq, OfNat.ofNat_ne_zero,
        not_false_eq_true, zero_pow, if_pos rfl, if_pos hi]
      exact npLeOne_npAdd_left_nan _
    · simp only [inEllipseTest, npDiv, Int.cast_zero, ne_eq, OfNat.ofNat_ne_zero,
        not_false_eq_true, zero_pow, if_pos rfl, if_neg hi]
      exact npLeOne_npAdd_left_inf _
  · subst h
    by_cases hj : ((j : ℚ) ^ 2) = 0
    · simp only [inEllipseTest, npDiv, Int.cast_zero, ne_eq, OfNat.ofNat_ne_zero,
        not_false_eq_true, zero_pow, if_pos rfl, if_pos hj]
      exact npLeOne_npAdd_right_nan _
    · simp only [inEllipseTest, npDiv, Int.cast_zero, ne_eq, OfNat.ofNat_ne_zero,
        not_false_eq_true, zero_pow, if_pos rfl, if_neg hj]
      exact npLeOne_npAdd_right_inf _

theorem inEllipseTest_eq_true_iff {a b : ℤ} (ha : a ≠ 0) (hb : b ≠ 0) (i j : ℤ) :
    inEllipseTest a b i j = true ↔
      (i : ℚ) ^ 2 / (a : ℚ) ^ 2 + (j : ℚ) ^ 2 / (b : ℚ) ^ 2 ≤ 1 := by
  have ha2 : ((a : ℚ) ^ 2) ≠ 0 := pow_ne_zero _ (Int.cast_ne_zero.mpr ha)
  have hb2 : ((b : ℚ) ^ 2) ≠ 0 := pow_ne_zero _ (Int.cast_ne_zero.mpr hb)
  simp only [inEllipseTest, npDiv, if_neg ha2, if_neg hb2, npAdd, npLeOne,
    decide_eq_true_eq]

theorem ellipse_ineq_int_iff {a b : ℤ} (ha : a ≠ 0) (hb : b ≠ 0) (i j : ℤ) :
    (i : ℚ) ^ 2 / (a : ℚ) ^ 2 + (j : ℚ) ^ 2 / (b : ℚ) ^ 2 ≤ 1 ↔
      i ^ 2 * b ^ 2 + a ^ 2 * j ^ 2 ≤ a ^ 2 * b ^ 2 := by
  have ha2 : ((a : ℚ) ^ 2) ≠ 0 := pow_ne_zero _ (Int.cast_ne_zero.mpr ha)
  have hb2 : ((b : ℚ) ^ 2) ≠ 0 := pow_ne_zero _ (Int.cast_ne_zero.mpr hb)
  have hpos : (0 : ℚ) < (a : ℚ) ^ 2 * (b : ℚ) ^ 2 := by
    rcases lt_or_gt_of_ne ha2 with h | h <;> rcases lt_or_gt_of_ne hb2 with h2 | h2 <;>
      nlinarith [sq_nonneg (a : ℚ), sq_nonneg (b : ℚ)]
  rw [div_add_div _ _ ha2 hb2, div_le_one hpos]
  constructor
  · intro h
    exact_mod_cast h
  · intro h
    exact_mod_cast h

theorem inEllipseTest_eq_int (a b i j : ℤ) :
    inEllipseTest a b i j = intEllipseTest a b i j := by
  by_cases h : a = 0 ∨ b = 0
  · rw [inEllipseTest_degenerate a b i j h, intEllipseTest, if_pos h]
  · push_neg at h
    obtain ⟨ha, hb⟩ := h
    rw [intEllipseTest, if_neg (by push_neg; exact ⟨ha, hb⟩)]
    cases hv : inEllipseTest a b i j with
    | true =>
      have hq := (inEllipseTest_eq_true_iff ha hb i j).mp hv
      exact (decide_eq_true ((ellipse_ineq_int_iff ha hb i j).mp hq)).symm
    | false =>
      symm
      rw [decide_eq_false_iff_not]
      intro hint
      have hq := (ellipse_ineq_int_iff ha hb i j).mpr hint
      have := (inEllipseTest_eq_true_iff ha hb i j).mpr hq
      rw [hv] at this
      exact Bool.false_ne_true this

theorem mem_gridOffsets {m x : ℤ} (hm : 0 ≤ m) : x ∈ gridOffsets m ↔ -m ≤ x ∧ x ≤ m := by
  constructor
  · intro hx
    obtain ⟨k, hk, rfl⟩ := List.mem_map.mp hx
    have hk2 := List.mem_range.mp hk
    omega
  · intro h
    exact List.mem_map.mpr ⟨(x + m).toNat, List.mem_range.mpr (by omega), by omega⟩

theorem abs_le_of_sq_le {x c : ℤ} (hc : 0 < c) (h : x ^ 2 ≤ c ^ 2) : -c ≤ x ∧ x ≤ c := by
  constructor <;> nlinarith [sq_nonneg (x + c), sq_nonneg (x - c)]

/-- Membership in the list returned by `get_px_in_ellipse`, for positive
semi-axes: a pixel is returned iff its offset from the center satisfies the
ellipse inequality with the first coordinate normalized by `b` and the second
by `a`. -/
theorem mem_get_px_in_ellipse_iff (c : ℤ × ℤ) (a b : ℤ) (ha : 0 < a) (hb : 0 < b)
    (p : ℤ × ℤ) :
    p ∈ get_px_in_ellipse c a b ↔
      ((p.1 - c.1 : ℚ) / (b : ℚ)) ^ 2 + ((p.2 - c.2 : ℚ) / (a : ℚ)) ^ 2 ≤ 1 := by
  have hm : (0 : ℤ) ≤ max a b := le_trans ha.le (le_max_left _ _)
  have hane : a ≠ 0 := ha.ne.symm
  have hbne : b ≠ 0 := hb.ne.symm
  constructor
  · intro hp
    simp only [get_px_in_ellipse, List.mem_flatMap, List.mem_filterMap] at hp
    obtain ⟨i, _, j, _, hij⟩ := hp
    by_cases ht : inEllipseTest a b i j
    · rw [if_pos ht] at hij
      obtain rfl := Option.some.inj hij
      have hq := (inEllipseTest_eq_true_iff hane hbne i j).mp ht
      show ((((c.1 + j : ℤ) : ℚ) - (c.1 : ℚ)) / (b : ℚ)) ^ 2 +
        ((((c.2 + i : ℤ) : ℚ) - (c.2 : ℚ)) / (a : ℚ)) ^ 2 ≤ 1
      have h1 : (((c.1 + j : ℤ) : ℚ) - (c.1 : ℚ)) = (j : ℚ) := by push_cast; ring
      have h2 : (((c.2 + i : ℤ) : ℚ) - (c.2 : ℚ)) = (i : ℚ) := by push_cast; ring
      rw [h1, h2, div_pow, div_pow]
      linarith
    · rw [if_neg ht] at hij
      exact absurd hij (by simp)
  · intro hmem
    set i : ℤ := p.2 - c.2 with hi
    set j : ℤ := p.1 - c.1 with hj
    have htest : inEllipseTest a b i j = true := by
      rw [inEllipseTest_eq_true_iff hane hbne]
      rw [div_pow, div_pow] at hmem
      push_cast [hi, hj]
      linarith
    have htq : (i : ℚ) ^ 2 / (a : ℚ) ^ 2 + (j : ℚ) ^ 2 / (b : ℚ) ^ 2 ≤ 1 :=
      (inEllipseTest_eq_true_iff hane hbne i j).mp htest
    have hia : i ^ 2 ≤ a ^ 2 := by
      have hpos : (0 : ℚ) < (a : ℚ) ^ 2 := by positivity
      have hjq : (0 : ℚ) ≤ (j : ℚ) ^ 2 / (b : ℚ) ^ 2 := by positivity
      have : (i : ℚ) ^ 2 ≤ (a : ℚ) ^ 2 := by
        rw [← div_le_one hpos] at *
        linarith
      exact_mod_cast this
    have hjb : j ^ 2 ≤ b ^ 2 := by
      have hpos : (0 : ℚ) < (b : ℚ) ^ 2 := by positivity
      have hiq : (0 : ℚ) ≤ (i : ℚ) ^ 2 / (a : ℚ) ^ 2 := by positivity
      have : (j : ℚ) ^ 2 ≤ (b : ℚ) ^ 2 := by
        rw [← div_le_one hpos] at *
        linarith
      exact_mod_cast this
    obtain ⟨hia1, hia2⟩ := abs_le_of_sq_le ha hia
    obtain ⟨hjb1, hjb2⟩ := abs_le_of_sq_le hb hjb
    simp only [get_px_in_ellipse, List.mem_flatMap, List.mem_filterMap]
    refine ⟨i, (mem_gridOffsets hm).mpr ⟨by omega, by omega⟩,
      j, (mem_gridOffsets hm).mpr ⟨by omega, by omega⟩, ?_⟩
    rw [if_pos htest]
    congr 1
    have : p = (c.1 + j, c.2 + i) := by
      rw [hi, hj]
      exact Prod.ext (by ring) (by ring)
    rw [this]

/-- C4 counterexample: at center (0,0) with `a = 0`, `b = 3` the claim requires
the degenerate single-column pixel set (which is non-empty — it contains the
center and the six other points with offset `|dy| ≤ 3`), but
`get_px_in_ellipse` returns the empty list: every division by `a**2 = 0`
produces `inf` or `nan` and the `<= 1` test fails everywhere. -/
theorem C4_degenerate_counterexample :
    get_px_in_ellipse (0, 0) 0 3 = [] ∧
    get_px_in_ellipse (0, 0) 0 3 ≠ claimed_degenerate_px (0, 0) 3 := by
  constructor
  · simp only [get_px_in_ellipse, inEllipseTest_eq_int]
    decide
  · simp only [get_px_in_ellipse, inEllipseTest_eq_int]
    decide

/-- C4 amended: when `a == 0` or `b == 0`, `get_px_in_ellipse` does not guard
the division by zero; the IEEE divisions yield `inf`/`nan`, every membership
test fails, and the function returns the empty pixel set (it does not raise,
but it also does not return the degenerate single-row/column set). -/
theorem C4_degenerate_empty (center : ℤ × ℤ) (a b : ℤ) (h : a = 0 ∨ b = 0) :
    get_px_in_ellipse center a b = [] := by
  rw [List.eq_nil_iff_forall_not_mem]
  intro p hp
  simp only [get_px_in_ellipse, List.mem_flatMap, List.mem_filterMap] at hp
  obtain ⟨i, _, j, _, hij⟩ := hp
  rw [inEllipseTest_degenerate a b i j h] at hij
  exact absurd hij (by simp)

/-- Witness for C4 amended at center (5, 7), `a = 0`, `b = 3`. -/
theorem C4_degenerate_empty_witness :
    ((0 : ℤ) = 0 ∨ (3 : ℤ) = 0) ∧ get_px_in_ellipse (5, 7) 0 3 = [] :=
  ⟨Or.inl rfl, C4_degenerate_empty (5, 7) 0 3 (Or.inl rfl)⟩

/-- C5 counterexample: at center (0,0) with `a = 1`, `b = 2` the code returns
the pixel (2, 0), whose offset has claimed normalized distance
`(2/1)^2 + (0/2)^2 = 4 > 1`: the returned set is not the set the claim
describes (the two axes' normalizations are swapped in the returned pairs). -/
theorem C5_ellipse_counterexample :
    (2, 0) ∈ get_px_in_ellipse (0, 0) 1 2 ∧ ¬ claimedEllipseMem (0, 0) 1 2 (2, 0) := by
  constructor
  · simp only [get_px_in_ellipse, inEllipseTest_eq_int]
    decide
  · unfold claimedEllipseMem
    norm_num

/-- C5 amended: for positive integer semi-axes, `get_px_in_ellipse` returns
exactly the integer points whose offset `(dx, dy)` from the center satisfies
`(dx/b)^2 + (dy/a)^2 ≤ 1` — the ellipse membership with the two normalizations
swapped relative to the claim (for `a = b` this coincides with the claimed
set); in particular for center (0,0) and `a = b = 3` it returns exactly the
29 integer lattice points with `col^2 + row^2 ≤ 9`. -/
theorem C5_ellipse_enumeration (c : ℤ × ℤ) (a b : ℤ) (ha : 0 < a) (hb : 0 < b) :
    (∀ p : ℤ × ℤ, p ∈ get_px_in_ellipse c a b ↔
      ((p.1 - c.1 : ℚ) / (b : ℚ)) ^ 2 + ((p.2 - c.2 : ℚ) / (a : ℚ)) ^ 2 ≤ 1) ∧
    (∀ p : ℤ × ℤ, a = b → (p ∈ get_px_in_ellipse c a b ↔ claimedEllipseMem c a b p)) ∧
    (get_px_in_ellipse (0, 0) 3 3).length = 29 := by
  refine ⟨mem_get_px_in_ellipse_iff c a b ha hb, ?_,
    by simp only [get_px_in_ellipse, inEllipseTest_eq_int]; decide⟩
  intro p hab
  subst hab
  rw [mem_get_px_in_ellipse_iff c a a ha ha]
  unfold claimedEllipseMem
  constructor <;> intro h <;> linarith

/-- Witness for C5 amended at center (0,0), `a = 1`, `b = 2`. -/
theorem C5_ellipse_enumeration_witness :
    ((0 : ℤ) < 1) ∧ ((0 : ℤ) < 2) ∧
    (∀ p : ℤ × ℤ, p ∈ get_px_in_ellipse (0, 0) 1 2 ↔
      ((p.1 : ℚ) / 2) ^ 2 + ((p.2 : ℚ) / 1) ^ 2 ≤ 1) := by
  refine ⟨by decide, by decide, ?_⟩
  have h := (C5_ellipse_enumeration (0, 0) 1 2 (by decide) (by decide)).1
  intro p
  have hp := h p
  simpa using hp

/-- C2: evaluation of the introspection loop at concrete rasters.  The loop
`for i in range(1, RasterCount)` enumerates only indices `1..N-1`: for a
single-band raster the inventory is empty and looking up band 1 fails with
the NotFound-style error even though the band exists; for a three-band raster
indices 1 and 2 are stored consistently (`idx` equals the lookup index) but
band 3 — a valid band, `3 ≤ RasterCount` — is missing and its lookup fails.
This contradicts the claim that all of `1..N` are enumerated. -/
theorem C2_inventory_off_by_one :
    hrrr_inventory_init c2_ds1 = []
    ∧ 1 ≤ c2_ds1.rasterCount
    ∧ get_product_by_index (hrrr_inventory_init c2_ds1) 1 =
        Except.error "No product exists for index"
    ∧ (get_product_by_index (hrrr_inventory_init c2_ds3) 1).toOption.map ParamDict.idx =
        some 1
    ∧ (get_product_by_index (hrrr_inventory_init c2_ds3) 2).toOption.map ParamDict.idx =
        some 2
    ∧ 3 ≤ c2_ds3.rasterCount
    ∧ get_product_by_index (hrrr_inventory_init c2_ds3) 3 =
        Except.error "No product exists for index" :=
  ⟨rfl, by decide, rfl, rfl, rfl, by decide, rfl⟩

/-- C6 counterexample: against an inventory holding exactly one band with
parameter code `A` and one with code `B`, `get_product_by_param(['A','B','A'])`
does not return a 3-element list — the introspection-based implementation
filters the inventory in band-index order, so each matching band appears once
regardless of how often its code was requested. -/
theorem C6_order_counterexample :
    (get_product_by_param (hrrr_inventory_init c6_ds) ["A", "B", "A"] []).length ≠ 3 := by
  decide

/-- C6 amended: `get_product_by_param(['A','B','A'])` against that inventory
returns the 2-element list `[recA, recB]` in inventory (band-index) order:
every record whose parameter code occurs in the requested list is returned
exactly once, and repeated requested codes do not duplicate or reorder
matches. -/
theorem C6_order_amended :
    get_product_by_param (hrrr_inventory_init c6_ds) ["A", "B", "A"] [] =
      [c6_recA, c6_recB] := by
  decide

/-- C1: the out-of-bounds diagnostic of `query_for_pts` is dead code and the
out-of-bounds fill is zero, not the no-data sentinel.  First conjunct: for
every raster and point set the warning flag is false, because the guard
compares `len(v)` — the length of the boolean mask, always equal to the
number of points — with the number of points.  Second conjunct: at a concrete
2x2 raster with one band of value `x + 10*y + 7` and points `(lat,lon) =
(0,0)` (in bounds) and `(5,5)` (out of bounds), the call returns without
raising, emits no warning, samples the in-bounds point (`7`), and fills the
out-of-bounds row with `0` (the `np.zeros` default), not NaN. -/
theorem C1_query_for_pts_dead_warning :
    (∀ (W H : ℤ) (gt : Fin 6 → ℚ) (bands : List (ℤ → ℤ → ℚ)) (pts : List (ℚ × ℚ)),
      (query_for_pts W H gt bands pts).1 = false)
    ∧ query_for_pts 2 2 idGT [c1_band] [(0, 0), (5, 5)] = (false, [[7], [0]]) := by
  constructor
  · intro W H gt bands pts
    simp [query_for_pts]
  · have h1 : map_to_pix_round idGT 0 0 = (0, 0) := by
      simp only [map_to_pix_round, map_to_pix_f, show idGT 0 = 0 from rfl,
        show idGT 1 = 1 from rfl, show idGT 2 = 0 from rfl, show idGT 3 = 0 from rfl,
        show idGT 4 = 0 from rfl, show idGT 5 = 1 from rfl]
      norm_num [npRound]
    have h2 : map_to_pix_round idGT 5 5 = (5, 5) := by
      simp only [map_to_pix_round, map_to_pix_f, show idGT 0 = 0 from rfl,
        show idGT 1 = 1 from rfl, show idGT 2 = 0 from rfl, show idGT 3 = 0 from rfl,
        show idGT 4 = 0 from rfl, show idGT 5 = 1 from rfl]
      norm_num [npRound]
    simp only [query_for_pts, List.map_cons, List.map_nil, h1, h2]
    norm_num [c1_band]

theorem clip_nonneg (q : ℚ) : 0 ≤ if q < 0 then 0 else q := by
  by_cases h : q < 0
  · simp [h]
  · simp [h, not_lt.mp h]

/-- C7: per-pixel zero and floor properties of the two derived fields.  Under
the defining property of the shear-vector norm (`0 ≤ bwd` and
`bwd^2 = u^2 + v^2`): when CAPE, both shear components and helicity are zero
(and, for STP, the LCL height is below 1000 m) both functions return zero;
and for every input neither function returns a negative value (negative
products are clipped to 0). -/
theorem C7_derived_fields_zero_and_floor
    (mucape sbcape u v bwd srh3 srh1 lcl : ℚ)
    (hb : 0 ≤ bwd) (hb2 : bwd ^ 2 = u ^ 2 + v ^ 2) :
    (mucape = 0 → u = 0 → v = 0 → srh3 = 0 → scpPixel mucape bwd srh3 = 0)
    ∧ (sbcape = 0 → u = 0 → v = 0 → srh1 = 0 → lcl < 1000 →
        stpPixel sbcape bwd lcl srh1 = 0)
    ∧ 0 ≤ scpPixel mucape bwd srh3
    ∧ 0 ≤ stpPixel sbcape bwd lcl srh1 := by
  refine ⟨?_, ?_, ?_, ?_⟩
  · intro h1 h2 h3 h4
    subst h1; subst h4
    simp [scpPixel]
  · intro h1 h2 h3 h4 h5
    subst h1; subst h4
    simp [stpPixel]
  · exact clip_nonneg _
  · exact clip_nonneg _

/-- Witness for C7 at the all-zero input. -/
theorem C7_derived_fields_witness :
    scpPixel 0 0 0 = 0 ∧ stpPixel 0 0 0 0 = 0 :=
  ⟨(C7_derived_fields_zero_and_floor 0 0 0 0 0 0 0 0 le_rfl (by ring)).1 rfl rfl rfl rfl,
   (C7_derived_fields_zero_and_floor 0 0 0 0 0 0 0 0 le_rfl (by ring)).2.1
      rfl rfl rfl rfl (by norm_num)⟩

/-- C8: for every destination projection string other than `world` and `map`,
`get_ds_for_product_idx` fails with the InvalidArgument-style error before any
raster work: the returned operation trace is empty (no fetch, no `/vsimem/`
allocation, no Translate, no Warp) and the product's lazily-fetched state is
unchanged. -/
theorem C8_invalid_projection_early (fetched : Bool) (proj : String)
    (bounds : Option (ℚ × ℚ × ℚ × ℚ))
    (h1 : proj ≠ "world") (h2 : proj ≠ "map") :
    get_ds_for_product_idx fetched proj bounds =
      ([], fetched, Except.error "Projection must be world or map") := by
  simp [get_ds_for_product_idx, h1, h2]

/-- Witness for C8 at the invalid projection string `mercator`. -/
theorem C8_invalid_projection_early_witness :
    ("mercator" ≠ "world") ∧ ("mercator" ≠ "map")
    ∧ get_ds_for_product_idx false "mercator" none =
        ([], false, Except.error "Projection must be world or map") :=
  ⟨by decide, by decide,
   C8_invalid_projection_early false "mercator" none (by decide) (by decide)⟩

/-- C9: the corner tuples handed to the coordinate-transformation routine for
the web-map projection, evaluated at the concrete geographic bounds
`(lon_min, lat_min, lon_max, lat_max) = (1, 2, 3, 4)` with a recording
transform.  The meteocre implementation supplies `(latitude, longitude)`
pairs — `(2, 1)` and `(4, 3)` — and replaces the bounds with the transform
output, as the claim states; the older nwstools implementation supplies
`(longitude, latitude)` pairs — `(1, 2)` and `(3, 4)` — violating the claimed
(and documented) argument order. -/
theorem C9_map_bounds_corner_order :
    (meteocre_map_bounds_xform (fun p => p) (1, 2, 3, 4)).1 = [(2, 1), (4, 3)]
    ∧ (meteocre_map_bounds_xform (fun p => p) (1, 2, 3, 4)).2 = (2, 1, 4, 3)
    ∧ (nwstools_map_bounds_xform (fun p => p) (1, 2, 3, 4)).1 = [(1, 2), (3, 4)]
    ∧ ([(1, 2), (3, 4)] : List (ℚ × ℚ)) ≠ [(2, 1), (4, 3)] := by
  refine ⟨rfl, rfl, rfl, ?_⟩
  intro h
  have h1 : ((1, 2) : ℚ × ℚ) = (2, 1) := by
    have := List.head_eq_of_cons_eq h
    exact this
  have : (1 : ℚ) = 2 := congrArg Prod.fst h1
  norm_num at this

/-- C10: `validate_product_id` does not accept exactly `prs`, `nat`, `sfc`,
`subh`: the regex `/(prs)|(nat)|(sfc)|(subh)$` rejects `prs` (its branch
requires a leading `/`), so the `HRRRProduct` constructor's validation step
fails for product id `prs`; while every string beginning with `nat` or `sfc`
(e.g. `natfoo`) is accepted because those branches are not end-anchored. -/
theorem C10_validate_product_id_regex :
    validate_product_id "prs".toList = Except.error "Invalid product ID"
    ∧ (∀ s : List Char, validate_product_id ('n' :: 'a' :: 't' :: s) = Except.ok ())
    ∧ (∀ s : List Char, validate_product_id ('s' :: 'f' :: 'c' :: s) = Except.ok ())
    ∧ validate_product_id "natfoo".toList = Except.ok ()
    ∧ hrrr_product_init_validation "prs".toList = Except.error "Invalid product ID" := by
  refine ⟨rfl, ?_, ?_, rfl, rfl⟩
  · intro s
    simp [validate_product_id, matches_product_re, List.isPrefixOf]
  · intro s
    simp [validate_product_id, matches_product_re, List.isPrefixOf]

end Meteocre
